import Mathlib

/-! SGD_PROJECT: tile map, kinematics and projectile bookkeeping of `main.cpp`.

A shallow embedding of the simulation core of `src/main.cpp`.

Conventions of the embedding:

* a C++ `double` is an exact rational number (`ℚ`): finite values, no rounding, no NaN or
  infinities;
* a C++ `int` is a mathematical integer (`Int`); the conversion `double → int` that happens
  implicitly at the call `map.get(pos.v.x, pos.v.y)` is truncation toward zero (`toInt`);
* `std::vector` is a `List`; the unchecked read `map[i]` is `getD … 0` (the source has
  undefined behaviour for a read outside the vector, the results below about concrete
  look-ups establish that the index is inside).
-/

namespace SGD

/-! ## Tile map -/

/-- The struct `game_map_t`: `width`, `height` and the row-major cell vector `map`. -/
structure game_map_t where
  width : Int
  height : Int
  map : List Int

/-- The member function `game_map_t::get(int x, int y)`. -/
def game_map_t.get (m : game_map_t) (x y : Int) : Int :=
  if x < 0 then 1
  else if x ≥ m.width then 1
  else if y < 0 then 1
  else if y ≥ m.height then 1
  else m.map.getD (y * m.width + x).toNat 0

/-- The global `game_map`: 20 x 10, nine empty rows followed by one solid row. -/
def game_map : game_map_t :=
  { width := 20, height := 10, map := [
      0,0,0,0,0,0,0,0,0,0,0,0,0,0,0,0,0,0,0,0,
      0,0,0,0,0,0,0,0,0,0,0,0,0,0,0,0,0,0,0,0,
      0,0,0,0,0,0,0,0,0,0,0,0,0,0,0,0,0,0,0,0,
      0,0,0,0,0,0,0,0,0,0,0,0,0,0,0,0,0,0,0,0,
      0,0,0,0,0,0,0,0,0,0,0,0,0,0,0,0,0,0,0,0,
      0,0,0,0,0,0,0,0,0,0,0,0,0,0,0,0,0,0,0,0,
      0,0,0,0,0,0,0,0,0,0,0,0,0,0,0,0,0,0,0,0,
      0,0,0,0,0,0,0,0,0,0,0,0,0,0,0,0,0,0,0,0,
      0,0,0,0,0,0,0,0,0,0,0,0,0,0,0,0,0,0,0,0,
      1,1,1,1,1,1,1,1,1,1,1,1,1,1,1,1,1,1,1,1] }

/-! ## Vectors and bodies -/

/-- The union `vect_t`, seen through its member `v` (`x`, `y`). -/
structure vect_t where
  x : ℚ
  y : ℚ
  deriving DecidableEq

/-- The overload `operator+(vect_t, vect_t)`. -/
def vect_t.add (a b : vect_t) : vect_t :=
  { x := a.x + b.x, y := a.y + b.y }

/-- The overload `operator*(vect_t, double)`. -/
def vect_t.smul (a : vect_t) (b : ℚ) : vect_t :=
  { x := a.x * b, y := a.y * b }

instance : Add vect_t := ⟨vect_t.add⟩

instance : HMul vect_t ℚ vect_t := ⟨vect_t.smul⟩

/-- The struct `player_t`: position `p`, velocity `v`, acceleration `a`. -/
structure player_t where
  p : vect_t
  v : vect_t
  a : vect_t
  deriving DecidableEq

/-- The struct `bullet_t`: position `p`, velocity `v`, acceleration `a`. -/
structure bullet_t where
  p : vect_t
  v : vect_t
  a : vect_t
  deriving DecidableEq

/-- Conversion of a `double` to `int`, as applied implicitly to the arguments of
`map.get`: the fractional part is discarded (truncation toward zero). A value whose
truncation does not fit an `int` has no defined conversion in the source; here the integers
are unbounded. -/
def toInt (r : ℚ) : Int :=
  Int.tdiv r.num r.den

/-- The function `is_in_collision(pos, map)`. -/
def is_in_collision (pos : vect_t) (m : game_map_t) : Bool :=
  decide (m.get (toInt pos.x) (toInt pos.y) > 0)

/-- The function `is_on_the_ground(player, map)`. -/
def is_on_the_ground (player : player_t) (m : game_map_t) : Bool :=
  decide (m.get (toInt player.p.x) (toInt (player.p.y + 0.01)) > 0)

/-- The local vector `collision_points` of `update_player`. -/
def collision_points : List vect_t :=
  [{ x := -0.4, y := 0.0 }, { x := 0.4, y := 0.0 }]

/-- The local vector `collision_mods` of `update_player`. -/
def collision_mods : List vect_t :=
  [{ x := 0.0, y := -1.0 }, { x := 0.0, y := -1.0 }]

/-- One iteration (index `i`) of the collision loop of `update_player`; `old_y` is
`player_old.p.v.y`. -/
def collision_step (m : game_map_t) (old_y : ℚ) (player : player_t) (i : Nat) : player_t :=
  let test_point := player.p + collision_points.getD i ⟨0, 0⟩
  if is_in_collision test_point m then
    if (collision_mods.getD i ⟨0, 0⟩).y < 0 then
      { player with v := { player.v with y := 0 }, p := { player.p with y := old_y } }
    else player
  else player

/-- The horizontal clamp of `update_player` (the `if … else if …` on `player.p.v.x`). -/
def clamp_x (player : player_t) : player_t :=
  if player.p.x < 0.5 then
    { player with p := { player.p with x := 0.5 }, v := { player.v with x := 0 } }
  else if player.p.x > 9.5 then
    { player with p := { player.p with x := 9.5 }, v := { player.v with x := 0 } }
  else player

/-- The state of `player` in `update_player` right after the two integration assignments
and the damping assignment, before the clamp. -/
def integrate_player (player_old : player_t) (m : game_map_t) (dt : ℚ) : player_t :=
  let player := player_old
  let player_old : player_t :=
    if !is_on_the_ground player_old m then
      { player_old with a := { player_old.a with y := 10 } }
    else player_old
  let player : player_t :=
    { player with p := player_old.p + (player_old.v * dt) + (player_old.a * dt * dt) * (0.5 : ℚ) }
  let player : player_t := { player with v := player_old.v + (player_old.a * dt) }
  { player with v := player.v * (0.99 : ℚ) }

/-- The function `update_player(player_old, map, dt)`. -/
def update_player (player_old : player_t) (m : game_map_t) (dt : ℚ) : player_t :=
  let player := clamp_x (integrate_player player_old m dt)
  (List.range collision_points.length).foldl (collision_step m player_old.p.y) player

/-- The function `update_bullet(bullet, dt)`. -/
def update_bullet (bullet : bullet_t) (dt : ℚ) : bullet_t :=
  let bullet : bullet_t :=
    { bullet with p := bullet.p + (bullet.v * dt) + (bullet.a * dt * dt) * (0.5 : ℚ) }
  { bullet with v := bullet.v + (bullet.a * dt) }

/-- The initial player of `main`: position (1,1), zero velocity, zero acceleration. -/
def initial_player : player_t :=
  { p := ⟨1, 1⟩, v := ⟨0, 0⟩, a := ⟨0, 0⟩ }

/-- The state reached from `s` after `n` frames without input on the built-in map, with
the frame time `dt = 1/60` of `main` (the call `update_player(player, game_map, dt)` of the
game loop). -/
def frames : Nat → player_t → player_t
  | 0, s => s
  | n + 1, s => update_player (frames n s) game_map (1 / 60)

/-- The state of the player of `main` after `n` frames without input. -/
def run (n : Nat) : player_t :=
  frames n initial_player

/-- The two foot samples of a frame: the position computed by `update_player` after
integration and horizontal clamping, displaced by each entry of `collision_points`. -/
def foot_samples (player_old : player_t) (m : game_map_t) (dt : ℚ) : List vect_t :=
  collision_points.map fun c => (clamp_x (integrate_player player_old m dt)).p + c

/-- Whether some foot sample of the frame starting in `player_old` is in collision. -/
def foot_hit (player_old : player_t) (m : game_map_t) (dt : ℚ) : Bool :=
  (foot_samples player_old m dt).any fun t => is_in_collision t m

/-- The player of `main` after 29 frames without input (see `run_29`). -/
def state_29 : player_t :=
  { p := ⟨1,
      74250373388280422730015092316714942252676262352676444347001 / 36000000000000000000000000000000000000000000000000000000000⟩,
    v := ⟨0,
      83433208870573192423328302561095019249107912549107851884333 / 20000000000000000000000000000000000000000000000000000000000⟩,
    a := ⟨0, 0⟩ }

/-- The player of `main` after 58 frames without input (see `run_58`). -/
def state_58 : player_t :=
  { p := ⟨1,
      1757834771623853294896377483232385601950346352468410362908820808132309565421377077443998733417850116947144379891895899 / 360000000000000000000000000000000000000000000000000000000000000000000000000000000000000000000000000000000000000000000⟩,
    v := ⟨0,
      1457721742792048901701207505589204799349884549177196545697059730622563478192874307518667088860716627684285206702701367 / 200000000000000000000000000000000000000000000000000000000000000000000000000000000000000000000000000000000000000000000⟩,
    a := ⟨0, 0⟩ }

/-- The player of `main` after 87 frames without input (see `run_87`). -/
def state_87 : player_t :=
  { p := ⟨1,
      318820879933220675381816712512036545138912699084280583663207213807936364408333206792708310813441891301021083287536733543359096141318739253639335503708346305283597086457598699 / 36000000000000000000000000000000000000000000000000000000000000000000000000000000000000000000000000000000000000000000000000000000000000000000000000000000000000000000000000000⟩,
    v := ⟨0,
      0⟩,
    a := ⟨0, 0⟩ }

/-- The player of `main` after 98 frames without input (see `run_98`). -/
def state_98 : player_t :=
  { p := ⟨1,
      107886378063979040163905570837345515046304233028093527887735737935978788136111068930902770271147297100340361095845577847786365380439579751213111834569448768427865695485866233 / 12000000000000000000000000000000000000000000000000000000000000000000000000000000000000000000000000000000000000000000000000000000000000000000000000000000000000000000000000000⟩,
    v := ⟨0,
      0⟩,
    a := ⟨0, 0⟩ }

/-! ## Projectile bookkeeping of `main` -/

/-- The library algorithm `std::find_if(first, last, pred)` over a whole vector: the index
of the first element that satisfies `pred`, the length when there is none. -/
def find_if {α : Type} (pred : α → Bool) : List α → Nat
  | [] => 0
  | x :: xs => if pred x then 0 else find_if pred xs + 1

/-- The loop of the library algorithm `std::remove_if`: `n` elements remain to be visited,
`i` is the read position and `result` the write position; an element that does not
satisfy `pred` is moved to `result`. -/
def remove_if_loop {α : Type} (pred : α → Bool) : Nat → List α → Nat → Nat → List α × Nat
  | 0, v, result, _ => (v, result)
  | n + 1, v, result, i =>
    match v[i]? with
    | none => (v, result)
    | some x =>
      if !pred x then remove_if_loop pred n (v.set result x) (result + 1) (i + 1)
      else remove_if_loop pred n v result (i + 1)

/-- The library algorithm `std::remove_if(v.begin(), v.end(), pred)`: the vector after the
call and the index of the returned iterator. -/
def remove_if {α : Type} (pred : α → Bool) (v : List α) : List α × Nat :=
  let first := find_if pred v
  if first = v.length then (v, first)
  else remove_if_loop pred (v.length - (first + 1)) v first (first + 1)

/-- The predicate of the removal in `main`: `bullet.p.v.y > 640`. -/
def fallen_off (bullet : bullet_t) : Bool :=
  decide (bullet.p.y > 640)

/-- The removal statement of `main`:
`bullets.erase(std::remove_if(bullets.begin(), bullets.end(), …), bullets.end())`. -/
def remove_fallen_bullets (bullets : List bullet_t) : List bullet_t :=
  let r := remove_if fallen_off bullets
  r.1.take r.2

/-! ## Theorems -/

/-! ### Truncation -/

theorem toInt_of_nonneg {r : ℚ} (h : 0 ≤ r) : toInt r = ⌊r⌋ := by
  unfold toInt
  rw [Rat.floor_def, Int.tdiv_eq_ediv (Rat.num_nonneg.mpr h) (Int.ofNat_nonneg _)]

theorem toInt_neg (r : ℚ) : toInt (-r) = -toInt r := by
  unfold toInt
  rw [Rat.neg_num, Rat.neg_den, Int.neg_tdiv]

theorem toInt_of_nonpos {r : ℚ} (h : r ≤ 0) : toInt r = ⌈r⌉ := by
  have h1 : toInt r = -toInt (-r) := by rw [toInt_neg, neg_neg]
  rw [h1, toInt_of_nonneg (neg_nonneg.mpr h), Int.floor_neg, neg_neg]

/-- Truncation never moves a value below an integer it already reaches. -/
theorem le_toInt {k : Int} {r : ℚ} (h : (k : ℚ) ≤ r) : k ≤ toInt r := by
  rcases le_total 0 r with h0 | h0
  · rw [toInt_of_nonneg h0]
    exact Int.le_floor.mpr h
  · rw [toInt_of_nonpos h0]
    exact Int.cast_le.mp (le_trans h (Int.le_ceil r))

/-- Truncation never moves a value above an integer it stays under. -/
theorem toInt_le {k : Int} {r : ℚ} (h : r ≤ (k : ℚ)) : toInt r ≤ k := by
  rcases le_total 0 r with h0 | h0
  · rw [toInt_of_nonneg h0]
    exact Int.cast_le.mp (le_trans (Int.floor_le r) h)
  · rw [toInt_of_nonpos h0]
    exact Int.ceil_le.mpr h

/-- A non-negative value below an integer truncates below that integer. -/
theorem toInt_lt {k : Int} {r : ℚ} (h0 : 0 ≤ r) (h : r < (k : ℚ)) : toInt r < k := by
  rw [toInt_of_nonneg h0]
  exact Int.floor_lt.mpr h

/-! ### Tile map -/

/-- Outside the integer index rectangle `get` answers 1. -/
theorem get_outside (m : game_map_t) (x y : Int)
    (h : x < 0 ∨ m.width ≤ x ∨ y < 0 ∨ m.height ≤ y) : m.get x y = 1 := by
  unfold game_map_t.get
  by_cases h1 : x < 0
  · simp [h1]
  by_cases h2 : m.width ≤ x
  · simp [h1, h2]
  by_cases h3 : y < 0
  · simp [h1, h2, h3]
  by_cases h4 : m.height ≤ y
  · simp [h1, h2, h3, h4]
  · simp [h1, h2, h3, h4] at h

/-- Inside the integer index rectangle `get` reads the cell vector at `y*width+x`. -/
theorem get_inside (m : game_map_t) (x y : Int)
    (hx : 0 ≤ x) (hx' : x < m.width) (hy : 0 ≤ y) (hy' : y < m.height) :
    m.get x y = m.map.getD (y * m.width + x).toNat 0 := by
  unfold game_map_t.get
  simp [not_lt.mpr hx, not_le.mpr hx', not_lt.mpr hy, not_le.mpr hy']

/-- Claim C4, as stated, fails: the point (-1/2, 1/2) lies outside the built-in map
(its x is negative), yet both coordinates truncate to 0 and the tile query reports the
empty cell (0,0). -/
theorem is_in_collision_negative_strip :
    ((-1 / 2 : ℚ) < 0) ∧ is_in_collision ⟨-1 / 2, 1 / 2⟩ game_map = false := by
  decide!

/-- Claim C4, amended: for every map and every point whose x or y is at most -1, or at
least the width (for x) or the height (for y), the tile query on continuous coordinates
reports solid, however far outside the point is. -/
theorem is_in_collision_outside (m : game_map_t) (x y : ℚ)
    (h : x ≤ -1 ∨ (m.width : ℚ) ≤ x ∨ y ≤ -1 ∨ (m.height : ℚ) ≤ y) :
    is_in_collision ⟨x, y⟩ m = true := by
  have hget : m.get (toInt x) (toInt y) = 1 := by
    apply get_outside
    rcases h with h | h | h | h
    · left
      have : toInt x ≤ -1 := toInt_le (by simpa using h)
      omega
    · right; left
      exact le_toInt h
    · right; right; left
      have : toInt y ≤ -1 := toInt_le (by simpa using h)
      omega
    · right; right; right
      exact le_toInt h
  simp [is_in_collision, hget]

theorem is_in_collision_outside_witness :
    ((-7 / 2 : ℚ) ≤ -1 ∨ (game_map.width : ℚ) ≤ -7 / 2 ∨ (3 : ℚ) ≤ -1 ∨
        (game_map.height : ℚ) ≤ 3) ∧
      is_in_collision ⟨-7 / 2, 3⟩ game_map = true :=
  ⟨Or.inl (by norm_num), is_in_collision_outside game_map (-7 / 2) 3 (Or.inl (by norm_num))⟩

/-- The length of a row-major concatenation of rows of equal length. -/
theorem length_flatten_rows {α : Type} (w : Nat) (rows : List (List α))
    (hw : ∀ r ∈ rows, r.length = w) : rows.flatten.length = rows.length * w := by
  induction rows with
  | nil => simp
  | cons r rs ih =>
    have hr : r.length = w := hw r (List.mem_cons_self _ _)
    have hrs : ∀ r' ∈ rs, r'.length = w := fun r' h => hw r' (List.mem_cons_of_mem _ h)
    simp only [List.flatten_cons, List.length_append, List.length_cons, ih hrs, hr]
    ring

/-- Indexing a row-major concatenation at `y*w+x` reads column `x` of row `y`. -/
theorem getElem?_flatten_rows {α : Type} (w : Nat) (rows : List (List α))
    (hw : ∀ r ∈ rows, r.length = w) (y x : Nat) (hx : x < w) :
    rows.flatten[y * w + x]? = (rows[y]?).bind fun row => row[x]? := by
  induction rows generalizing y with
  | nil => simp
  | cons r rs ih =>
    have hr : r.length = w := hw r (List.mem_cons_self _ _)
    have hrs : ∀ r' ∈ rs, r'.length = w := fun r' h => hw r' (List.mem_cons_of_mem _ h)
    cases y with
    | zero =>
      simp only [List.flatten_cons, Nat.zero_mul, Nat.zero_add, List.getElem?_cons_zero,
        Option.some_bind]
      exact List.getElem?_append_left (by omega)
    | succ y =>
      have hle : r.length ≤ (y + 1) * w + x := by
        rw [hr, Nat.succ_mul]; omega
      have hsub : (y + 1) * w + x - r.length = y * w + x := by
        rw [hr, Nat.succ_mul]; omega
      simp only [List.flatten_cons, List.getElem?_cons_succ]
      rw [List.getElem?_append_right hle, hsub]
      exact ih hrs y

/-- Claim C5: on a map whose cell vector is the row-major concatenation of `height` rows
of `width` codes, an in-bounds `get(x, y)` reads at an index below `width*height`, inside
the cell vector, and returns the x-th code of the y-th row. -/
theorem get_row_major (m : game_map_t) (rows : List (List Int))
    (hmap : m.map = rows.flatten) (hh : (rows.length : Int) = m.height)
    (hw : ∀ r ∈ rows, (r.length : Int) = m.width)
    (x y : Int) (hx : 0 ≤ x) (hx' : x < m.width) (hy : 0 ≤ y) (hy' : y < m.height) :
    y * m.width + x < m.width * m.height ∧
      (y * m.width + x).toNat < m.map.length ∧
      ∃ row, rows[y.toNat]? = some row ∧ row[x.toNat]? = some (m.get x y) := by
  obtain ⟨w, hwid⟩ : ∃ w : Nat, m.width = (w : Int) := ⟨m.width.toNat, by omega⟩
  obtain ⟨xn, rfl⟩ : ∃ n : Nat, x = (n : Int) := ⟨x.toNat, by omega⟩
  obtain ⟨yn, rfl⟩ : ∃ n : Nat, y = (n : Int) := ⟨y.toNat, by omega⟩
  have hw' : ∀ r ∈ rows, r.length = w := fun r hr => by
    have := hw r hr
    omega
  have hxw : xn < w := by omega
  have hyh : yn < rows.length := by omega
  have hlen : m.map.length = rows.length * w := by
    rw [hmap]; exact length_flatten_rows w rows hw'
  have hidx : ((yn : Int) * m.width + (xn : Int)).toNat = yn * w + xn := by
    rw [hwid]
    have : ((yn : Int) * (w : Int) + (xn : Int)) = ((yn * w + xn : Nat) : Int) := by
      push_cast; ring
    rw [this, Int.toNat_ofNat]
  have hbound : yn * w + xn < rows.length * w := by
    have h1 : (yn + 1) * w ≤ rows.length * w := Nat.mul_le_mul_right w hyh
    rw [Nat.succ_mul] at h1
    omega
  refine ⟨?_, ?_, ?_⟩
  · rw [← hh, hwid]
    have : ((yn * w + xn : Nat) : Int) < ((rows.length * w : Nat) : Int) :=
      Int.ofNat_lt.mpr hbound
    push_cast at this
    linarith
  · rw [hidx, hlen]; exact hbound
  · have hrow : rows[yn]? = some (rows[yn]) := List.getElem?_eq_getElem hyh
    have hrl : rows[yn].length = w := hw' _ (List.getElem_mem _)
    have hcell : (rows[yn])[xn]? = some ((rows[yn])[xn]) :=
      List.getElem?_eq_getElem (by omega)
    refine ⟨rows[yn], by simp, ?_⟩
    rw [get_inside m _ _ hx hx' hy hy', hidx, List.getD_eq_getElem?_getD, hmap,
      getElem?_flatten_rows w rows hw' yn xn hxw, hrow]
    simp only [Int.toNat_ofNat, Option.some_bind, hcell, Option.getD_some]

theorem get_row_major_witness :
    (1 : Int) * 2 + 0 < 2 * 2 ∧ ((1 : Int) * 2 + 0).toNat < [5, 6, 7, 8].length ∧
      ∃ row, [[5, 6], [7, 8]][(1 : Int).toNat]? = some row ∧
        row[(0 : Int).toNat]? = some ((game_map_t.mk 2 2 [5, 6, 7, 8]).get 0 1) :=
  get_row_major ⟨2, 2, [5, 6, 7, 8]⟩ [[5, 6], [7, 8]] rfl rfl (by decide) 0 1
    (by decide) (by decide) (by decide) (by decide)

/-! ### Player step -/

/-- The collision loop of `update_player`, unrolled over its two indices. -/
theorem update_player_eq (p : player_t) (m : game_map_t) (dt : ℚ) :
    update_player p m dt =
      collision_step m p.p.y
        (collision_step m p.p.y (clamp_x (integrate_player p m dt)) 0) 1 := rfl

/-- The body of the collision loop, with its local `test_point` substituted. -/
theorem collision_step_def (m : game_map_t) (oy : ℚ) (q : player_t) (i : Nat) :
    collision_step m oy q i =
      if is_in_collision (q.p + collision_points.getD i ⟨0, 0⟩) m = true then
        if (collision_mods.getD i ⟨0, 0⟩).y < 0 then
          { q with v := { q.v with y := 0 }, p := { q.p with y := oy } }
        else q
      else q := rfl

/-- An iteration of the collision loop whose sample collides resets y and zeroes the
vertical velocity. -/
theorem collision_step_hit (m : game_map_t) (oy : ℚ) (q : player_t) (i : Nat) (hi : i < 2)
    (h : is_in_collision (q.p + collision_points.getD i ⟨0, 0⟩) m = true) :
    (collision_step m oy q i).p.y = oy ∧ (collision_step m oy q i).v.y = 0 := by
  have hmod : (collision_mods.getD i ⟨0, 0⟩).y < 0 := by
    interval_cases i <;> norm_num [collision_mods]
  rw [collision_step_def, if_pos h, if_pos hmod]
  exact ⟨rfl, rfl⟩

/-- An iteration of the collision loop whose sample does not collide changes nothing. -/
theorem collision_step_miss (m : game_map_t) (oy : ℚ) (q : player_t) (i : Nat)
    (h : is_in_collision (q.p + collision_points.getD i ⟨0, 0⟩) m = false) :
    collision_step m oy q i = q := by
  rw [collision_step_def, if_neg (by rw [h]; exact Bool.false_ne_true)]

/-- An iteration of the collision loop either keeps y and the vertical velocity or
resets them to the old y and 0. -/
theorem collision_step_cases (m : game_map_t) (oy : ℚ) (q : player_t) (i : Nat) :
    collision_step m oy q i = q ∨
      ((collision_step m oy q i).p.y = oy ∧ (collision_step m oy q i).v.y = 0) := by
  rw [collision_step_def]
  split_ifs
  · exact Or.inr ⟨rfl, rfl⟩
  · exact Or.inl rfl
  · exact Or.inl rfl

theorem getD_collision_points_zero : collision_points.getD 0 ⟨0, 0⟩ = ⟨-0.4, 0⟩ := by
  norm_num [collision_points]

theorem getD_collision_points_one : collision_points.getD 1 ⟨0, 0⟩ = ⟨0.4, 0⟩ := by
  norm_num [collision_points]

/-- Claim C1: if, after integration and horizontal clamping, one of the two foot samples
(candidate position plus (-0.4, 0) or plus (0.4, 0)) is in collision, `update_player`
returns the pre-step y and a vertical velocity of exactly 0. -/
theorem update_player_foot_collision (m : game_map_t) (p : player_t) (dt : ℚ)
    (h : is_in_collision ((clamp_x (integrate_player p m dt)).p + ⟨-0.4, 0⟩) m = true ∨
      is_in_collision ((clamp_x (integrate_player p m dt)).p + ⟨0.4, 0⟩) m = true) :
    (update_player p m dt).p.y = p.p.y ∧ (update_player p m dt).v.y = 0 := by
  rw [update_player_eq]
  set c := clamp_x (integrate_player p m dt) with hc
  by_cases h0 : is_in_collision (c.p + ⟨-0.4, 0⟩) m = true
  · have h1 := collision_step_hit m p.p.y c 0 (by norm_num)
      (by rw [getD_collision_points_zero]; exact h0)
    rcases collision_step_cases m p.p.y (collision_step m p.p.y c 0) 1 with h2 | h2
    · rw [h2]; exact h1
    · exact h2
  · have h0' : is_in_collision (c.p + ⟨-0.4, 0⟩) m = false := by simpa using h0
    have h1 : collision_step m p.p.y c 0 = c :=
      collision_step_miss m p.p.y c 0 (by rw [getD_collision_points_zero]; exact h0')
    rw [h1]
    have h2 : is_in_collision (c.p + ⟨0.4, 0⟩) m = true := by
      rcases h with h | h
      · exact absurd h h0
      · exact h
    exact collision_step_hit m p.p.y c 1 (by norm_num)
      (by rw [getD_collision_points_one]; exact h2)

theorem update_player_foot_collision_witness :
    (update_player ⟨⟨1, 8.99⟩, ⟨0, 1⟩, ⟨0, 0⟩⟩ game_map (1 / 60)).p.y = 8.99 ∧
      (update_player ⟨⟨1, 8.99⟩, ⟨0, 1⟩, ⟨0, 0⟩⟩ game_map (1 / 60)).v.y = 0 :=
  update_player_foot_collision game_map ⟨⟨1, 8.99⟩, ⟨0, 1⟩, ⟨0, 0⟩⟩ (1 / 60)
    (Or.inl (by decide!))

theorem vect_add_x (a b : vect_t) : (a + b).x = a.x + b.x := rfl

theorem vect_add_y (a b : vect_t) : (a + b).y = a.y + b.y := rfl

theorem vect_smul_x (a : vect_t) (b : ℚ) : (a * b).x = a.x * b := rfl

theorem vect_smul_y (a : vect_t) (b : ℚ) : (a * b).y = a.y * b := rfl

/-- On the built-in map every tile of row index 9 or more is solid, whatever the column. -/
theorem game_map_floor (x y : Int) (hy : 9 ≤ y) : game_map.get x y = 1 := by
  by_cases hout : x < 0 ∨ game_map.width ≤ x ∨ y < 0 ∨ game_map.height ≤ y
  · exact get_outside game_map x y hout
  · have hw : game_map.width = 20 := rfl
    have hh : game_map.height = 10 := rfl
    rw [hw, hh] at hout
    have hy9 : y = 9 := by omega
    have hx0 : 0 ≤ x := by omega
    have hx20 : x < 20 := by omega
    subst hy9
    interval_cases x <;> rfl

/-- On the built-in map a point whose y is 9 or more is in collision. -/
theorem is_in_collision_floor (pos : vect_t) (hy : 9 ≤ pos.y) :
    is_in_collision pos game_map = true := by
  have h9 : (9 : Int) ≤ toInt pos.y := le_toInt (by simpa using hy)
  simp [is_in_collision, game_map_floor _ _ h9]

/-- Claim C2: on the built-in map, a player whose y is below 9 is returned by
`update_player` with a y below 9, for every velocity, acceleration and dt. -/
theorem update_player_above_floor (p : player_t) (dt : ℚ) (h : p.p.y < 9) :
    (update_player p game_map dt).p.y < 9 := by
  rw [update_player_eq]
  set c := clamp_x (integrate_player p game_map dt) with hc
  rcases collision_step_cases game_map p.p.y (collision_step game_map p.p.y c 0) 1
    with h2 | h2
  · rw [h2]
    rcases collision_step_cases game_map p.p.y c 0 with h1 | h1
    · rw [h1]
      by_contra hge
      have hcol : is_in_collision (c.p + collision_points.getD 0 ⟨0, 0⟩) game_map = true := by
        apply is_in_collision_floor
        rw [vect_add_y, getD_collision_points_zero]
        simpa using not_lt.mp hge
      have hreset := (collision_step_hit game_map p.p.y c 0 (by norm_num) hcol).1
      rw [h1] at hreset
      exact hge (by rw [hreset]; exact h)
    · rw [h1.1]; exact h
  · rw [h2.1]; exact h

theorem update_player_above_floor_witness :
    (update_player ⟨⟨1, 8.99⟩, ⟨0, 1⟩, ⟨0, 0⟩⟩ game_map (1 / 60)).p.y < 9 :=
  update_player_above_floor ⟨⟨1, 8.99⟩, ⟨0, 1⟩, ⟨0, 0⟩⟩ (1 / 60) (by norm_num)

/-! ### Free flight and bullets -/

/-- Claim C6: for a player that is not grounded, whose integrated x lies in [0.5, 9.5]
and neither of whose foot samples collides, `update_player` returns
position `p + v*dt + 0.5*g*dt^2` and velocity `0.99*(v + g*dt)` with `g = (a.x, 10)`, and
the acceleration as passed in. On the built-in map the start state (1,1) is not grounded
and with `dt = 1/60` its y strictly increases. -/
theorem update_player_free_fall :
    (∀ (m : game_map_t) (p : player_t) (dt : ℚ),
      is_on_the_ground p m = false →
      0.5 ≤ p.p.x + p.v.x * dt + 0.5 * p.a.x * dt ^ 2 →
      p.p.x + p.v.x * dt + 0.5 * p.a.x * dt ^ 2 ≤ 9.5 →
      is_in_collision ((clamp_x (integrate_player p m dt)).p + ⟨-0.4, 0⟩) m = false →
      is_in_collision ((clamp_x (integrate_player p m dt)).p + ⟨0.4, 0⟩) m = false →
      update_player p m dt =
        { p := ⟨p.p.x + p.v.x * dt + 0.5 * p.a.x * dt ^ 2,
                p.p.y + p.v.y * dt + 0.5 * 10 * dt ^ 2⟩,
          v := ⟨0.99 * (p.v.x + p.a.x * dt), 0.99 * (p.v.y + 10 * dt)⟩,
          a := p.a }) ∧
    is_on_the_ground initial_player game_map = false ∧
    initial_player.p.y < (update_player initial_player game_map (1 / 60)).p.y := by
  refine ⟨?_, by decide!, by decide!⟩
  intro m p dt hg hlo hhi h0 h1
  have hint : integrate_player p m dt =
      { p := ⟨p.p.x + p.v.x * dt + 0.5 * p.a.x * dt ^ 2,
              p.p.y + p.v.y * dt + 0.5 * 10 * dt ^ 2⟩,
        v := ⟨0.99 * (p.v.x + p.a.x * dt), 0.99 * (p.v.y + 10 * dt)⟩,
        a := p.a } := by
    unfold integrate_player
    simp only [hg, Bool.not_false, if_true]
    congr 1
    · show (⟨_, _⟩ : vect_t) = _
      congr 1 <;> simp only [vect_add_x, vect_add_y, vect_smul_x, vect_smul_y] <;> ring
    · show (⟨_, _⟩ : vect_t) = _
      congr 1 <;> simp only [vect_add_x, vect_add_y, vect_smul_x, vect_smul_y] <;> ring
  have hclamp : clamp_x (integrate_player p m dt) = integrate_player p m dt := by
    unfold clamp_x
    rw [if_neg (by rw [hint]; exact not_lt.mpr hlo), if_neg (by rw [hint]; exact not_lt.mpr hhi)]
  rw [update_player_eq]
  rw [collision_step_miss m p.p.y _ 0 (by rw [getD_collision_points_zero]; exact h0)]
  rw [collision_step_miss m p.p.y _ 1 (by rw [getD_collision_points_one]; exact h1)]
  rw [hclamp, hint]

theorem update_player_free_fall_witness :
    update_player initial_player game_map (1 / 60) =
      { p := ⟨1 + 0 * (1 / 60) + 0.5 * 0 * (1 / 60) ^ 2,
              1 + 0 * (1 / 60) + 0.5 * 10 * (1 / 60) ^ 2⟩,
        v := ⟨0.99 * (0 + 0 * (1 / 60)), 0.99 * (0 + 10 * (1 / 60))⟩,
        a := ⟨0, 0⟩ } :=
  update_player_free_fall.1 game_map initial_player (1 / 60) (by decide!)
    (by norm_num [initial_player]) (by norm_num [initial_player]) (by decide!) (by decide!)

/-- Claim C10: `update_bullet` returns position `p + v*dt + 0.5*a*dt^2`, velocity
`v + a*dt` and the acceleration unchanged; with zero velocity and zero acceleration the
position is returned unchanged for every dt. -/
theorem update_bullet_spec (b : bullet_t) (dt : ℚ) :
    (update_bullet b dt).p =
        ⟨b.p.x + b.v.x * dt + 0.5 * b.a.x * dt ^ 2, b.p.y + b.v.y * dt + 0.5 * b.a.y * dt ^ 2⟩ ∧
      (update_bullet b dt).v = ⟨b.v.x + b.a.x * dt, b.v.y + b.a.y * dt⟩ ∧
      (update_bullet b dt).a = b.a ∧
      (b.v = ⟨0, 0⟩ → b.a = ⟨0, 0⟩ → (update_bullet b dt).p = b.p) := by
  have hp : (update_bullet b dt).p =
      ⟨b.p.x + b.v.x * dt + b.a.x * dt * dt * 0.5, b.p.y + b.v.y * dt + b.a.y * dt * dt * 0.5⟩ :=
    rfl
  refine ⟨?_, rfl, rfl, ?_⟩
  · rw [hp]
    congr 1 <;> ring
  · intro hv ha
    rw [hp, hv, ha]
    obtain ⟨⟨px, py⟩, _, _⟩ := b
    simp

theorem update_bullet_spec_witness :
    (update_bullet ⟨⟨3, 4⟩, ⟨0, 0⟩, ⟨0, 0⟩⟩ (1 / 60)).p = ⟨3, 4⟩ :=
  (update_bullet_spec ⟨⟨3, 4⟩, ⟨0, 0⟩, ⟨0, 0⟩⟩ (1 / 60)).2.2.2 rfl rfl

/-! ### Spawn timing -/

theorem find_if_le {α : Type} (pred : α → Bool) (l : List α) : find_if pred l ≤ l.length := by
  induction l with
  | nil => simp [find_if]
  | cons x xs ih =>
    unfold find_if
    split_ifs
    · exact Nat.zero_le _
    · simpa using ih

/-- Up to the element found by `find_if` everything is kept, the found element is not. -/
theorem filter_eq_take_find_if {α : Type} (pred : α → Bool) (l : List α) :
    l.filter (fun x => !pred x) =
      l.take (find_if pred l) ++ (l.drop (find_if pred l + 1)).filter (fun x => !pred x) := by
  induction l with
  | nil => simp [find_if]
  | cons x xs ih =>
    unfold find_if
    by_cases hx : pred x = true
    · simp [hx]
    · have hx' : pred x = false := by simpa using hx
      rw [if_neg hx, List.filter_cons_of_pos (by simp [hx']), List.take_succ_cons,
        List.drop_succ_cons, List.cons_append, ← ih]

/-- Writing at position `k` and keeping `k+1` elements appends the written element to
the first `k`. -/
theorem take_succ_set {α : Type} (x : α) :
    ∀ (v : List α) (k : Nat), k < v.length → (v.set k x).take (k + 1) = v.take k ++ [x] := by
  intro v
  induction v with
  | nil => intro k hk; simp at hk
  | cons y ys ih =>
    intro k hk
    cases k with
    | zero => simp
    | succ k =>
      have hk' : k < ys.length := by simpa using hk
      simp [ih k hk']

/-- The loop of `remove_if` keeps the written prefix and appends to it, in order, the
elements of the unread part that do not satisfy the predicate. -/
theorem remove_if_loop_take {α : Type} (pred : α → Bool) (n : Nat) :
    ∀ (v : List α) (result i : Nat), result ≤ i → i + n = v.length →
      (remove_if_loop pred n v result i).1.take (remove_if_loop pred n v result i).2 =
        v.take result ++ (v.drop i).filter (fun x => !pred x) := by
  induction n with
  | zero =>
    intro v result i _ hlen
    have hdrop : v.drop i = [] := List.drop_of_length_le (by omega)
    simp [remove_if_loop, hdrop]
  | succ n ih =>
    intro v result i hri hlen
    have hi : i < v.length := by omega
    have hget : v[i]? = some v[i] := List.getElem?_eq_getElem hi
    have hdrop : v.drop i = v[i] :: v.drop (i + 1) := List.drop_eq_getElem_cons hi
    unfold remove_if_loop
    rw [hget]
    by_cases hx : pred v[i] = true
    · have hstep := ih v result (i + 1) (by omega) (by omega)
      simp only [hx, Bool.not_true, Bool.false_eq_true, if_false]
      rw [hstep, hdrop, List.filter_cons_of_neg (by simp [hx])]
    · have hx' : pred v[i] = false := by simpa using hx
      have hstep := ih (v.set result v[i]) (result + 1) (i + 1) (by omega)
        (by rw [List.length_set]; omega)
      simp only [hx', Bool.not_false, if_true]
      rw [hstep, hdrop, List.filter_cons_of_pos (by simp [hx']),
        List.drop_set_of_lt _ _ (by omega), take_succ_set _ _ _ (by omega)]
      simp

/-- The erase-remove statement keeps exactly the elements that do not satisfy the
predicate, in their original order. -/
theorem take_remove_if {α : Type} (pred : α → Bool) (v : List α) :
    (remove_if pred v).1.take (remove_if pred v).2 = v.filter (fun x => !pred x) := by
  unfold remove_if
  have hle := find_if_le pred v
  have hsplit := filter_eq_take_find_if pred v
  by_cases hk : find_if pred v = v.length
  · rw [if_pos hk]
    have hnil : v.drop (find_if pred v + 1) = [] := List.drop_of_length_le (by omega)
    rw [hsplit, hnil]
    simp
  · rw [if_neg hk]
    rw [remove_if_loop_take pred _ v _ _ (Nat.le_succ _) (by omega), ← hsplit]

/-- Claim C9: the cull pass returns exactly the sub-list of the bullets whose y does not
exceed 640, in their original order; a bullet at y = 641 is removed, one at y = 639 is
retained. -/
theorem remove_fallen_bullets_spec (bullets : List bullet_t) :
    remove_fallen_bullets bullets = bullets.filter (fun b => decide (b.p.y ≤ 640)) ∧
      (remove_fallen_bullets bullets).Sublist bullets ∧
      (∀ b, b ∈ remove_fallen_bullets bullets ↔ b ∈ bullets ∧ ¬ b.p.y > 640) ∧
      (∀ b ∈ bullets, b.p.y = 641 → b ∉ remove_fallen_bullets bullets) ∧
      (∀ b ∈ bullets, b.p.y = 639 → b ∈ remove_fallen_bullets bullets) := by
  have hfilter : ∀ bs : List bullet_t,
      remove_fallen_bullets bs = bs.filter (fun b => decide (b.p.y ≤ 640)) := by
    intro bs
    unfold remove_fallen_bullets
    rw [take_remove_if]
    apply List.filter_congr
    intro b _
    by_cases h : 640 < b.p.y
    · simp [fallen_off, h]
    · simp [fallen_off, h, not_lt.mp h]
  refine ⟨hfilter bullets, ?_, ?_, ?_, ?_⟩
  · rw [hfilter]; exact List.filter_sublist _
  · intro b
    rw [hfilter, List.mem_filter]
    simp
  · intro b _ hy
    rw [hfilter, List.mem_filter]
    simp only [hy, decide_eq_true_eq, not_and]
    intro _
    norm_num
  · intro b hb hy
    rw [hfilter, List.mem_filter]
    simp only [hy, decide_eq_true_eq]
    exact ⟨hb, by norm_num⟩

theorem remove_fallen_bullets_spec_witness :
    (⟨⟨5, 641⟩, ⟨0, 20⟩, ⟨0, 15⟩⟩ : bullet_t) ∉
        remove_fallen_bullets [⟨⟨5, 641⟩, ⟨0, 20⟩, ⟨0, 15⟩⟩, ⟨⟨7, 639⟩, ⟨0, 20⟩, ⟨0, 15⟩⟩] ∧
      (⟨⟨7, 639⟩, ⟨0, 20⟩, ⟨0, 15⟩⟩ : bullet_t) ∈
        remove_fallen_bullets [⟨⟨5, 641⟩, ⟨0, 20⟩, ⟨0, 15⟩⟩, ⟨⟨7, 639⟩, ⟨0, 20⟩, ⟨0, 15⟩⟩] :=
  ⟨(remove_fallen_bullets_spec
      [⟨⟨5, 641⟩, ⟨0, 20⟩, ⟨0, 15⟩⟩, ⟨⟨7, 639⟩, ⟨0, 20⟩, ⟨0, 15⟩⟩]).2.2.2.1
      ⟨⟨5, 641⟩, ⟨0, 20⟩, ⟨0, 15⟩⟩ (List.mem_cons_self _ _) rfl,
    (remove_fallen_bullets_spec
      [⟨⟨5, 641⟩, ⟨0, 20⟩, ⟨0, 15⟩⟩, ⟨⟨7, 639⟩, ⟨0, 20⟩, ⟨0, 15⟩⟩]).2.2.2.2
      ⟨⟨7, 639⟩, ⟨0, 20⟩, ⟨0, 15⟩⟩ (List.mem_cons_of_mem _ (List.mem_cons_self _ _)) rfl⟩

/-! ### The fall of the player of `main` -/

theorem frames_add (a b : Nat) (s : player_t) : frames (a + b) s = frames b (frames a s) := by
  induction b with
  | zero => rfl
  | succ b ih =>
    show update_player (frames (a + b) s) game_map (1 / 60) = _
    rw [ih]
    rfl

theorem run_succ (n : Nat) : run (n + 1) = update_player (run n) game_map (1 / 60) := rfl

theorem run_29 : run 29 = state_29 := by decide!

theorem frames_29_state_29 : frames 29 state_29 = state_58 := by decide!

theorem frames_29_state_58 : frames 29 state_58 = state_87 := by decide!

theorem frames_11_state_87 : frames 11 state_87 = state_98 := by decide!

theorem run_58 : run 58 = state_58 := by
  have h := frames_add 29 29 initial_player
  rw [show frames 29 initial_player = state_29 from run_29, frames_29_state_29] at h
  exact h

theorem run_87 : run 87 = state_87 := by
  have h := frames_add 58 29 initial_player
  rw [show frames 58 initial_player = state_58 from run_58, frames_29_state_58] at h
  exact h

theorem run_98 : run 98 = state_98 := by
  have h := frames_add 87 11 initial_player
  rw [show frames 87 initial_player = state_87 from run_87, frames_11_state_87] at h
  exact h

theorem run_add_29 (j : Nat) : run (29 + j) = frames j state_29 := by
  rw [← run_29]; exact frames_add 29 j initial_player

theorem run_add_58 (j : Nat) : run (58 + j) = frames j state_58 := by
  rw [← run_58]; exact frames_add 58 j initial_player

theorem run_add_87 (j : Nat) : run (87 + j) = frames j state_87 := by
  rw [← run_87]; exact frames_add 87 j initial_player

theorem no_hit_from_start :
    ∀ j, j < 29 → foot_hit (frames j initial_player) game_map (1 / 60) = false := by
  decide!

theorem no_hit_from_29 :
    ∀ j, j < 29 → foot_hit (frames j state_29) game_map (1 / 60) = false := by
  decide!

theorem no_hit_from_58 :
    ∀ j, j < 28 → foot_hit (frames j state_58) game_map (1 / 60) = false := by
  decide!

theorem no_hit_from_87 :
    ∀ j, j < 10 → foot_hit (frames j state_87) game_map (1 / 60) = false := by
  decide!

theorem hit_at_86 : foot_hit (frames 28 state_58) game_map (1 / 60) = true := by decide!

theorem hit_at_97 : foot_hit (frames 10 state_87) game_map (1 / 60) = true := by decide!

/-- No foot sample collides in the first 86 frames; one does in frame 87. -/
theorem first_landing :
    (∀ k, k < 86 → foot_hit (run k) game_map (1 / 60) = false) ∧
      foot_hit (run 86) game_map (1 / 60) = true := by
  constructor
  · intro k hk
    rcases Nat.lt_or_ge k 29 with h1 | h1
    · exact no_hit_from_start k h1
    rcases Nat.lt_or_ge k 58 with h2 | h2
    · obtain ⟨j, rfl⟩ : ∃ j, k = 29 + j := ⟨k - 29, by omega⟩
      rw [run_add_29]
      exact no_hit_from_29 j (by omega)
    · obtain ⟨j, rfl⟩ : ∃ j, k = 58 + j := ⟨k - 58, by omega⟩
      rw [run_add_58]
      exact no_hit_from_58 j (by omega)
  · rw [show (86 : Nat) = 58 + 28 from rfl, run_add_58]
    exact hit_at_86

/-- The state after 98 frames is a fixed point of the frame update. -/
theorem update_player_state_98 : update_player state_98 game_map (1 / 60) = state_98 := by
  decide!

theorem frames_state_98 (j : Nat) : frames j state_98 = state_98 := by
  induction j with
  | zero => rfl
  | succ j ih =>
    show update_player (frames j state_98) game_map (1 / 60) = _
    rw [ih, update_player_state_98]

theorem run_ge_98 (n : Nat) (h : 98 ≤ n) : run n = state_98 := by
  obtain ⟨j, rfl⟩ : ∃ j, n = 98 + j := ⟨n - 98, by omega⟩
  have := frames_add 98 j initial_player
  rw [show frames 98 initial_player = state_98 from run_98, frames_state_98] at this
  exact this

/-- Claim C7, as stated, fails: the first frame in which a foot sample collides is
frame 87 (no collision in the frames from states 0 to 85, a collision in the frame
from state 86), and the later frame 88 returns a larger y than the frame before it. -/
theorem run_rises_after_first_landing :
    (∀ k, k < 86 → foot_hit (run k) game_map (1 / 60) = false) ∧
      foot_hit (run 86) game_map (1 / 60) = true ∧
      (run 87).p.y < (run 88).p.y := by
  refine ⟨first_landing.1, first_landing.2, ?_⟩
  rw [show (88 : Nat) = 87 + 1 from rfl, run_add_87, run_87]
  decide!

/-- Claim C7, amended: on the built-in map, from the start state (1,1) at rest and with
`dt = 1/60`, foot samples land in the solid bottom row (y index 9) in frame 87 for the
first time and in frame 98 for the second time; from that second landing onward
position.y is stable: no later frame returns a y larger than the one before it (the
state no longer changes at all). -/
theorem run_settles :
    ((∀ k, k < 86 → foot_hit (run k) game_map (1 / 60) = false) ∧
      foot_hit (run 86) game_map (1 / 60) = true ∧
      (∀ k, 87 ≤ k → k < 97 → foot_hit (run k) game_map (1 / 60) = false) ∧
      foot_hit (run 97) game_map (1 / 60) = true) ∧
    (∀ t ∈ foot_samples (run 86) game_map (1 / 60) ++ foot_samples (run 97) game_map (1 / 60),
      toInt t.y = 9) ∧
    (∀ n, 98 ≤ n → (run (n + 1)).p.y ≤ (run n).p.y ∧ run n = run 98) := by
  refine ⟨⟨first_landing.1, first_landing.2, ?_, ?_⟩, ?_, ?_⟩
  · intro k h1 h2
    obtain ⟨j, rfl⟩ : ∃ j, k = 87 + j := ⟨k - 87, by omega⟩
    rw [run_add_87]
    exact no_hit_from_87 j (by omega)
  · rw [show (97 : Nat) = 87 + 10 from rfl, run_add_87]
    exact hit_at_97
  · rw [show (86 : Nat) = 58 + 28 from rfl, run_add_58,
      show (97 : Nat) = 87 + 10 from rfl, run_add_87]
    decide!
  · intro n hn
    rw [run_ge_98 n hn, run_ge_98 (n + 1) (by omega), run_98]
    exact ⟨le_refl _, rfl⟩

theorem run_settles_witness :
    (run (100 + 1)).p.y ≤ (run 100).p.y ∧ run 100 = run 98 :=
  run_settles.2.2 100 (by decide)

end SGD
